import Mathlib

/-!
Verification development for the HTTP/2 multiplexing core
(`src/node_http2_core-inl.h`, `src/node_http2_core.cc`).

The C++ code is shallowly embedded: byte buffers become `List Nat`, the
intrusive linked lists (`data_chunks_head_/tail_`, `current_headers_head_/tail_`,
`queue_head_/tail_`) become Lean lists (with `LINKED_LIST_ADD` / tail insertion
becoming append at the end of the list), the `std::map` stream registry becomes
an association list, and the external collaborators (nghttp2 engine, transport,
JS consumer) are observed through explicit result fields recording the calls the
code makes into them.  Machine integers are modelled as `Nat`/`Int`; all sizes
involved are far below any overflow boundary and no arithmetic in the modelled
routines wraps.
-/

namespace Http2

/-- A byte buffer (`uv_buf_t` contents / `uint8_t*` region). -/
abbrev Buf := List Nat

/-- A header name/value pair (`nghttp2_header_list` entry, holding the two
`nghttp2_rcbuf` references). -/
abbrev Header := Buf × Buf

/-! ## Stream registry (`Nghttp2Session::FindStream`, `streams_` std::map) -/

/-- Models `Nghttp2Session::FindStream`: returns the stream associated with `id`, or
`none` if there is no such entry (`streams_.find(id)` on the `std::map`,
modelled as an association list with at most one entry per id). -/
def FindStream {α : Type} (streams : List (Int × α)) (id : Int) : Option α :=
  match streams with
  | [] => none
  | (k, v) :: rest => if k = id then some v else FindStream rest id

/-! ## Inbound DATA path
(`Nghttp2Session::OnDataChunkReceived`, `Nghttp2Session::HandleDataFrame`) -/

/-- Models `Nghttp2Session::OnDataChunkReceived`: called by nghttp2 multiple times
while processing a DATA frame; copies the engine-owned bytes into a freshly
acquired chunk and appends it at the tail of the stream's
`data_chunks_head_/tail_` list. -/
def OnDataChunkReceived (chunks : List Buf) (data : Buf) : List Buf :=
  chunks ++ [data]

/-- Models the inner loop of `Nghttp2Session::HandleDataFrame`: pops each chunk off
`data_chunks_head_` in order, hands it to the consumer callback `OnDataChunk`,
then deletes the byte buffer and returns the chunk node to
`data_chunk_free_list`.  Returns (the `OnDataChunk` payloads in call order,
the chunk list left on the stream). -/
def HandleDataFrame : List Buf → List Buf × List Buf
  | [] => ([], [])
  | item :: rest =>
      let r := HandleDataFrame rest
      (item :: r.1, r.2)

/-- Models `Nghttp2Session::HandleDataFrame` at session level: `FindStream` the id and
`CHECK_NE(stream, nullptr)` — an unknown id is a fatal invariant violation,
modelled as `none` (abort).  On success returns the `OnDataChunk` payloads and
the updated registry entry (chunk queue drained). -/
def HandleDataFrameSession (streams : List (Int × List Buf)) (id : Int) :
    Option (List Buf × List (Int × List Buf)) :=
  match FindStream streams id with
  | none => none
  | some chunks =>
      let r := HandleDataFrame chunks
      some (r.1, streams.map fun p => if p.1 = id then (id, r.2) else p)

/-! ## Stream close (`Nghttp2Session::OnStreamClose`) -/

/-- Models `Nghttp2Session::OnStreamClose`: looks the stream up; if it does not exist
the callback is intentionally ignored (returns 0 with no consumer
notification); otherwise `stream->Close(code)` runs.  `Close` lives in
`node_http2_core.h`, which is not part of this repository.  Modelled from the
spec: the stream-close dispatch "delivers the closure code to the external
consumer, then destroys the stream" — recorded here as one `(id, code)`
notification event.  Returns (the callback's return value, the notifications
issued). -/
def OnStreamClose (streams : List (Int × List Buf)) (id : Int) (code : Nat) :
    Int × List (Int × Nat) :=
  match FindStream streams id with
  | none => (0, [])
  | some _ => (0, [(id, code)])

/-! ## Inbound HEADERS path
(`Nghttp2Session::OnHeaderCallback`, `Nghttp2Session::HandleHeadersFrame`) -/

/-- The header-accumulation state of one stream: `current_headers_head_/tail_`
plus `current_headers_category_`. -/
structure StreamHeaders where
  currentHeaders : List Header
  category : Nat
deriving Repr, DecidableEq

/-- Models `Nghttp2Session::OnHeaderCallback`: called once per name/value pair of a
HEADERS or PUSH_PROMISE block; acquires a header node, increfs the two rcbufs
and `LINKED_LIST_ADD`s it at the tail of the stream's current-headers list. -/
def OnHeaderCallback (s : StreamHeaders) (name value : Buf) : StreamHeaders :=
  { s with currentHeaders := s.currentHeaders ++ [(name, value)] }

/-- Models `Nghttp2Stream::FreeHeaders`: pops every node off the current-headers list
(releasing the rcbuf references and returning the nodes to
`header_free_list`), leaving it empty. -/
def FreeHeaders (s : StreamHeaders) : StreamHeaders :=
  { s with currentHeaders := [] }

/-- One `OnHeaders` delivery to the external consumer: the header sequence,
the headers category and the frame flags. -/
structure HeadersEvent where
  headers : List Header
  category : Nat
  flags : Nat
deriving Repr, DecidableEq

/-- Models `Nghttp2Session::HandleHeadersFrame` (per-stream part, after the
`CHECK_NE(stream, nullptr)` succeeded): calls `OnHeaders(stream,
stream->headers(), stream->headers_category(), frame->hd.flags)` exactly once,
then `stream->FreeHeaders()`.  Returns (the `OnHeaders` calls made, the
resulting stream state). -/
def HandleHeadersFrame (s : StreamHeaders) (flags : Nat) :
    List HeadersEvent × StreamHeaders :=
  ([⟨s.currentHeaders, s.category, flags⟩], FreeHeaders s)

/-- One completed HEADERS/PUSH_PROMISE frame as driven by nghttp2: the
per-header callback fires once per pair in receipt order, then the
frame-complete handler runs. -/
def ProcessHeaderBlock (s : StreamHeaders) (pairs : List Header) (flags : Nat) :
    List HeadersEvent × StreamHeaders :=
  HandleHeadersFrame (pairs.foldl (fun t p => OnHeaderCallback t p.1 p.2) s) flags

/-- Models `Nghttp2Session::HandleHeadersFrame` at session level: `FindStream`
the id and `CHECK_NE(stream, nullptr)` — an unknown id is a fatal invariant
violation, modelled as `none` (abort). -/
def HandleHeadersFrameSession (streams : List (Int × StreamHeaders)) (id : Int)
    (flags : Nat) : Option (List HeadersEvent × List (Int × StreamHeaders)) :=
  match FindStream streams id with
  | none => none
  | some s =>
      let r := HandleHeadersFrame s flags
      some (r.1, streams.map fun p => if p.1 = id then (id, r.2) else p)

/-! ## Stream flags and lifecycle state
(`Nghttp2Stream`: `flags_`, `prev_local_window_size_`, `session_`,
`data_chunks_head_`, `current_headers_head_`)

The `NGHTTP2_STREAM_*` flag bitmask is modelled as a record of booleans; the
local flow-control window lives inside the nghttp2 engine and is reached
through `nghttp2_session_get/set_stream_local_window_size`, modelled as an
explicit `localWindow` field of the state. -/

structure StreamFlags where
  readStart : Bool
  readPaused : Bool
  destroying : Bool
  destroyed : Bool
  shut : Bool
deriving Repr, DecidableEq

/-- The per-stream state touched by `ReadStop`/`ReadStart`/`Destroy`. -/
structure StreamState where
  sid : Int
  flags : StreamFlags
  hasSession : Bool
  dataChunks : List Buf
  currentHeaders : List Header
  localWindow : Int
  prevLocalWindowSize : Int
deriving Repr, DecidableEq

/-- Modelled from the spec: the predicate bodies live in `node_http2_core.h`,
which is not part of this repository.  Per the comment inside
`Nghttp2Stream::ReadStop`, a stream is reading when `NGHTTP2_STREAM_READ_START`
is set and `NGHTTP2_STREAM_READ_PAUSED` is not. -/
def IsReading (s : StreamState) : Bool :=
  s.flags.readStart && !s.flags.readPaused

/-- Modelled from the spec: tests the `NGHTTP2_STREAM_DESTROYING` lifecycle
flag set by `Destroy` itself (predicate body in the missing
`node_http2_core.h`). -/
def IsDestroying (s : StreamState) : Bool := s.flags.destroying

/-- Modelled from the spec: tests the terminal `Destroyed` lifecycle state
(predicate body in the missing `node_http2_core.h`). -/
def IsDestroyed (s : StreamState) : Bool := s.flags.destroyed

/-- Models `Nghttp2Stream::ReadStop`: has no effect if `IsReading()` is false; else
sets `NGHTTP2_STREAM_READ_PAUSED`, snapshots the engine's current local window
size into `prev_local_window_size_` when the engine reports a non-negative
value, then sets the local window size to 0. -/
def ReadStop (s : StreamState) : StreamState :=
  if !IsReading s then s
  else
    let s1 := { s with flags := { s.flags with readPaused := true } }
    let ret := s1.localWindow
    let s2 := if 0 ≤ ret then { s1 with prevLocalWindowSize := ret } else s1
    { s2 with localWindow := 0 }

/-- The externally observable effects of one `Nghttp2Stream::Destroy` call:
the `RemoveStream` calls made on the session, the data-chunk buffers freed
(and their nodes returned to `data_chunk_free_list`), the header entries
released by `FreeHeaders`, and whether the object was pushed back onto
`stream_free_list`. -/
structure DestroyResult where
  stream : StreamState
  removedFromSession : List Int
  freedChunks : List Buf
  freedHeaders : List Header
  pooled : Bool
deriving Repr, DecidableEq

/-- Models `Nghttp2Stream::Destroy`: does nothing if the stream is already destroyed
or destroying; otherwise sets `NGHTTP2_STREAM_DESTROYING`, removes the stream
from its session (when it still has one) and clears `session_`, frees the
remaining data chunks, frees the remaining headers, and returns the object to
the freelist. -/
def Destroy (s : StreamState) : DestroyResult :=
  if IsDestroyed s || IsDestroying s then ⟨s, [], [], [], false⟩
  else
    let s1 := { s with flags := { s.flags with destroying := true } }
    let removed := if s1.hasSession then [s1.sid] else []
    let s2 := { s1 with hasSession := false }
    let freedC := s2.dataChunks
    let s3 := { s2 with dataChunks := [] }
    let freedH := s3.currentHeaders
    let s4 := { s3 with currentHeaders := [] }
    ⟨s4, removed, freedC, freedH, true⟩

/-! ## Outbound write queue (`Nghttp2Stream::Write`,
`Nghttp2Session::OnStreamRead`)

A write request (`nghttp2_stream_write_queue` node) carries the caller's
buffers and its completion callback; the callback is identified by the
request id `wid` and an invocation is recorded as `(wid, status)`.

The head-of-queue cursor (`queue_head_index_`, `queue_head_offset_`) is
modelled as the suffix `headBufs` of the head request's buffer list that is
not yet fully written (`headBufs = head.bufs.drop queue_head_index_`) together
with the byte offset `headOff` into its first buffer; a request is fully
consumed exactly when this suffix is empty
(`queue_head_index_ == head->nbufs`). -/

/-- Constant `UV_EOF`, the libuv end-of-file error code. -/
def UV_EOF : Int := -4095

structure WriteReq where
  wid : Nat
  bufs : List Buf
deriving Repr, DecidableEq

/-- Result of one `Nghttp2Stream::Write` call. -/
structure WriteResult where
  retval : Int
  queue : List WriteReq
  cbCalls : List (Nat × Int)
  resumed : Bool
deriving Repr, DecidableEq

/-- Models `Nghttp2Stream::Write`: if the stream is not writable, invokes the
completion callback (when one was supplied) synchronously with `UV_EOF` and
returns 0 without enqueueing anything; otherwise appends a new write-queue
node holding the caller's buffers at the tail of `queue_head_/tail_` and
signals the engine via `nghttp2_session_resume_data`. -/
def StreamWrite (writable : Bool) (queue : List WriteReq) (req : WriteReq)
    (hasCb : Bool) : WriteResult :=
  if !writable then
    ⟨0, queue, if hasCb then [(req.wid, UV_EOF)] else [], false⟩
  else
    ⟨0, queue ++ [req], [], true⟩

/-- Result of draining one request's remaining buffers into the destination
(`OnStreamRead`'s inner `while (queue_head_index_ < head->nbufs)` loop):
the bytes copied, the buffer suffix still unwritten, the new intra-buffer
offset, and the destination space still remaining. -/
structure FillOut where
  out : Buf
  bufs : List Buf
  off : Nat
  rem : Nat
deriving Repr, DecidableEq

/-- Inner loop of `Nghttp2Session::OnStreamRead` over one request's buffers:
while buffers remain, if the destination is full stop (`goto end`); else copy
`bytes_to_write = min (buf.len - offset) remaining` bytes from the current
buffer at the current offset; a partial copy advances `queue_head_offset_`,
a full copy moves to the next buffer (`queue_head_index_++`,
`queue_head_offset_ = 0`). -/
def fillGo : List Buf → Nat → Nat → FillOut
  | [], off, rem => ⟨[], [], off, rem⟩
  | b :: bs, off, rem =>
    if rem = 0 then ⟨[], b :: bs, off, 0⟩
    else
      let len := b.length - off
      let btw := min len rem
      let out1 := (b.drop off).take btw
      if btw < len then ⟨out1, b :: bs, off + btw, rem - btw⟩
      else
        let r := fillGo bs 0 (rem - btw)
        ⟨out1 ++ r.out, r.bufs, r.off, r.rem⟩

/-- The cursor value for a freshly headed queue: `queue_head_index_ = 0`
means the full buffer list of the head request (empty when the queue is). -/
def headBufsOf : List WriteReq → List Buf
  | [] => []
  | h :: _ => h.bufs

/-- Result of the outer drain loop of `OnStreamRead`: bytes copied, the
completion callbacks fired (request ids, in call order), and the surviving
queue with its head cursor. -/
structure PullOut where
  out : Buf
  fired : List Nat
  queue : List WriteReq
  headBufs : List Buf
  headOff : Nat
deriving Repr, DecidableEq

/-- Outer loop of `Nghttp2Session::OnStreamRead`
(`while (stream->queue_head_ != nullptr)`): drain the head request; if its
buffers were exhausted, fire its completion callback with status 0, release
the node, and continue with the next request (cursor reset to 0/0);
otherwise the destination is full and the loop ends (`goto end`) with the
cursor kept. -/
def pullQueue : List WriteReq → List Buf → Nat → Nat → PullOut
  | [], headBufs, headOff, _ => ⟨[], [], [], headBufs, headOff⟩
  | h :: t, headBufs, headOff, rem =>
    let f := fillGo headBufs headOff rem
    if f.bufs.isEmpty then
      let p := pullQueue t (headBufsOf t) 0 f.rem
      ⟨f.out ++ p.out, h.wid :: p.fired, p.queue, p.headBufs, p.headOff⟩
    else
      ⟨f.out, [], h :: t, f.bufs, f.off⟩

/-- Constant `NGHTTP2_ERR_DEFERRED`: tells nghttp2 to suspend further pulls for this
stream until `nghttp2_session_resume_data` is next called. -/
def NGHTTP2_ERR_DEFERRED : Int := -508

/-- Full result of one `Nghttp2Session::OnStreamRead` invocation: the value
returned to nghttp2, the `NGHTTP2_DATA_FLAG_EOF` / `NGHTTP2_DATA_FLAG_NO_END_STREAM`
flags, the trailers submitted via `nghttp2_submit_trailer`, plus the drain
results. -/
structure ReadOut where
  retval : Int
  eofFlag : Bool
  noEndStream : Bool
  submittedTrailers : List Header
  out : Buf
  fired : List Nat
  queue : List WriteReq
  headBufs : List Buf
  headOff : Nat
deriving Repr, DecidableEq

/-- Models `Nghttp2Session::OnStreamRead`, tail section after the drain loop:
`writable = queue_head_ != nullptr || IsWritable()`; if no byte was copied,
the stream is writable and the queue is empty, return `NGHTTP2_ERR_DEFERRED`;
if the stream is not writable, set the EOF flag, ask the external consumer
for trailers (`OnTrailers`, modelled as the `trailers` argument) and, when it
supplied any, set `NGHTTP2_DATA_FLAG_NO_END_STREAM` and submit them; finally
return the number of bytes copied.  `isWritableFlag` is the value of the
stream's `IsWritable()` (its body lives in the missing `node_http2_core.h`;
the claims below quantify over it). -/
def OnStreamRead (isWritableFlag : Bool) (trailers : List Header)
    (q : List WriteReq) (hb : List Buf) (off : Nat) (length : Nat) : ReadOut :=
  let p := pullQueue q hb off length
  let writable : Bool := !p.queue.isEmpty || isWritableFlag
  if p.out.length = 0 && writable && p.queue.isEmpty then
    ⟨NGHTTP2_ERR_DEFERRED, false, false, [], p.out, p.fired, p.queue,
      p.headBufs, p.headOff⟩
  else if !writable then
    ⟨Int.ofNat p.out.length, true, !trailers.isEmpty,
      if trailers.isEmpty then [] else trailers,
      p.out, p.fired, p.queue, p.headBufs, p.headOff⟩
  else
    ⟨Int.ofNat p.out.length, false, false, [], p.out, p.fired, p.queue,
      p.headBufs, p.headOff⟩

/-- Cumulative result of a sequence of outbound pulls. -/
structure ManyOut where
  out : Buf
  fired : List Nat
  queue : List WriteReq
  headBufs : List Buf
  headOff : Nat
deriving Repr, DecidableEq

/-- A sequence of `OnStreamRead` drain invocations with destination
capacities `ls`, threading the persistent per-stream queue state
(`queue_head_`, `queue_head_index_`, `queue_head_offset_`) between calls. -/
def pullMany : List WriteReq → List Buf → Nat → List Nat → ManyOut
  | q, hb, off, [] => ⟨[], [], q, hb, off⟩
  | q, hb, off, l :: ls =>
    let p := pullQueue q hb off l
    let m := pullMany p.queue p.headBufs p.headOff ls
    ⟨p.out ++ m.out, p.fired ++ m.fired, m.queue, m.headBufs, m.headOff⟩

/-- All bytes of one write request, in buffer order. -/
def reqBytes (r : WriteReq) : Buf := r.bufs.flatten

/-- All bytes of a write queue, in submission order. -/
def allBytes (q : List WriteReq) : Buf := (q.map reqBytes).flatten

/-- The bytes a queue state still owes the engine: the unwritten part of the
head request followed by the bytes of the remaining requests. -/
def pendingState (q : List WriteReq) (hb : List Buf) (off : Nat) : Buf :=
  hb.flatten.drop off ++ allBytes q.tail

/-- Well-formedness of the head cursor: an empty queue carries an empty
cursor, and otherwise `headBufs` is a suffix of the head request's buffers
with the offset inside the first of them. -/
def CursorOK (q : List WriteReq) (hb : List Buf) (off : Nat) : Prop :=
  match q with
  | [] => hb = [] ∧ off = 0
  | h :: _ => (∃ j, hb = h.bufs.drop j) ∧ off ≤ (hb.headD []).length

/-! ## Session inbound write (`Nghttp2Session::Write`)

`nghttp2_session_mem_recv` belongs to the external protocol engine; it is
modelled as an oracle supplying, for each buffer fed, the `ssize_t` it
returns (consumed byte count, or a negative error code). -/

/-- Loop body of `Nghttp2Session::Write`: feed each buffer in order; a
negative result is returned immediately (the remaining buffers are not fed
and `SendPendingData` does not run); otherwise the consumed counts
accumulate into `total`.  Returns (return value, number of buffers fed to
the engine, whether `SendPendingData` ran). -/
def SessionWriteGo : List Int → Int → Nat → Int × Nat × Bool
  | [], total, fed => (total, fed, true)
  | r :: rs, total, fed =>
    if r < 0 then (r, fed + 1, false) else SessionWriteGo rs (total + r) (fed + 1)

/-- Models `Nghttp2Session::Write`: feeds the inbound buffers to
`nghttp2_session_mem_recv` in order, accumulating the consumed byte counts;
on any failure returns that code at once; on success calls
`SendPendingData()` and returns the total. -/
def SessionWrite (results : List Int) : Int × Nat × Bool :=
  SessionWriteGo results 0 0

/-! ## Send Pipeline (`Nghttp2Session::SendPendingData`)

`nghttp2_session_mem_send` is modelled as the list of chunks the engine
yields (the loop stops at the first empty result); `AllocateSend`/`Send` are
the transport collaborators: a send buffer of capacity `B`
(`SEND_BUFFER_RECOMMENDED_SIZE`) is modelled as the list of bytes written
into it so far (`offset = cur.length`, `remaining = B - cur.length`), and a
`Send` is recorded by appending the flushed buffer contents to the output
list. -/

/-- Inner loop of `SendPendingData` for one pulled chunk (`while (amount >
0)`): if the chunk does not fit in the remaining buffer space, copy
`remaining` bytes from `data + src_offset`, set `src_offset = remaining`
(verbatim from the source: the read offset is assigned, not advanced),
flush the buffer and continue with a fresh one; otherwise copy the last
`amount` bytes and reset `src_offset` to 0.  Returns (buffers flushed, the
current buffer afterwards).  The `B = 0` guard is a modelling artefact: the
code always runs with the positive `SEND_BUFFER_RECOMMENDED_SIZE`, and with
a zero-capacity buffer its loop would never terminate. -/
def copyChunk (B : Nat) (data : Buf) (amount srcOff : Nat) (cur : Buf) :
    List Buf × Buf :=
  if B = 0 then ([], cur)
  else if amount = 0 then ([], cur)
  else
    if B - cur.length < amount then
      let rest := copyChunk B data (amount - (B - cur.length)) (B - cur.length) []
      ((cur ++ (data.drop srcOff).take (B - cur.length)) :: rest.1, rest.2)
    else
      ([], cur ++ (data.drop srcOff).take amount)
termination_by 2 * amount + (if B ≤ cur.length then 1 else 0)
decreasing_by
  simp only [List.length_nil]
  split
  · omega
  · split <;> omega

/-- Outer loop of `SendPendingData` (`while ((amount =
nghttp2_session_mem_send(session_, &data)) > 0)`) followed by the final
`Send(current, offset)`: each chunk is copied through the fixed-capacity
buffer, and once the engine yields nothing the final (possibly partial)
buffer is flushed.  Returns the flushed buffers in flush order. -/
def SendPendingData (B : Nat) : List Buf → Buf → List Buf
  | [], cur => [cur]
  | c :: cs, cur =>
    if c.length = 0 then [cur]
    else
      let r := copyChunk B c c.length 0 cur
      r.1 ++ SendPendingData B cs r.2

/-! ## Helper lemmas -/

lemma foldl_onDataChunkReceived (cs : List Buf) (acc : List Buf) :
    cs.foldl OnDataChunkReceived acc = acc ++ cs := by
  induction cs generalizing acc with
  | nil => simp
  | cons c cs ih => simp [OnDataChunkReceived, ih]

lemma handleDataFrame_eq (q : List Buf) : HandleDataFrame q = (q, []) := by
  induction q with
  | nil => rfl
  | cons a t ih => simp [HandleDataFrame, ih]

lemma foldl_onHeaderCallback (pairs : List Header) (s : StreamHeaders) :
    pairs.foldl (fun t p => OnHeaderCallback t p.1 p.2) s
      = ⟨s.currentHeaders ++ pairs, s.category⟩ := by
  induction pairs generalizing s with
  | nil => simp
  | cons p ps ih =>
      rw [List.foldl_cons, ih]
      simp [OnHeaderCallback]

/-! ## C1 -/

/-- C1 counterexample: a DATA frame whose bytes arrived as a 6-byte chunk
followed by a 4-byte chunk is NOT delivered as a single 10-byte aggregate;
the frame-complete handler hands each chunk to the consumer separately. -/
theorem handleDataFrame_no_aggregate :
    (HandleDataFrame
        (OnDataChunkReceived (OnDataChunkReceived [] [1, 2, 3, 4, 5, 6])
          [7, 8, 9, 10])).1
      ≠ [[1, 2, 3, 4, 5, 6, 7, 8, 9, 10]] := by
  decide

/-- C1 (amended): for every completed DATA frame, the frame-complete handler
delivers each accumulated chunk to the external consumer separately, one
`OnDataChunk` call per chunk in arrival order; the chunk queue is fully
drained, and the concatenation of the delivered payloads equals the
concatenation of the received bytes (total delivered bytes = total received
bytes). -/
theorem handleDataFrame_per_chunk (cs : List Buf) :
    (HandleDataFrame (cs.foldl OnDataChunkReceived [])).1 = cs
    ∧ (HandleDataFrame (cs.foldl OnDataChunkReceived [])).2 = []
    ∧ ((HandleDataFrame (cs.foldl OnDataChunkReceived [])).1).flatten
        = cs.flatten := by
  rw [foldl_onDataChunkReceived, handleDataFrame_eq]
  simp

/-! ## C6 -/

/-- C6: for every completed HEADERS/PUSH_PROMISE frame carrying the pairs
`pairs`, `OnHeaders` fires exactly once, with exactly those entries in receipt
order together with the stream's category and the frame flags, and the
stream's headers-in-progress sequence is empty immediately afterwards. -/
theorem processHeaderBlock_once (s : StreamHeaders) (pairs : List Header)
    (flags : Nat) (h : s.currentHeaders = []) :
    (ProcessHeaderBlock s pairs flags).1 = [⟨pairs, s.category, flags⟩]
    ∧ (ProcessHeaderBlock s pairs flags).2.currentHeaders = [] := by
  unfold ProcessHeaderBlock
  rw [foldl_onHeaderCallback, h]
  simp [HandleHeadersFrame, FreeHeaders]

/-- C6 witness: a concrete two-pair header block on a fresh stream. -/
theorem processHeaderBlock_once_witness :
    (ProcessHeaderBlock ⟨[], 2⟩ [([1], [2]), ([3], [4])] 5).1
        = [⟨[([1], [2]), ([3], [4])], 2, 5⟩]
    ∧ (ProcessHeaderBlock ⟨[], 2⟩ [([1], [2]), ([3], [4])] 5).2.currentHeaders
        = [] :=
  processHeaderBlock_once ⟨[], 2⟩ [([1], [2]), ([3], [4])] 5 rfl

/-! ## C4 -/

/-- C4: a write submitted on a non-writable stream is reported synchronously,
within the same call, to that write's own completion callback (when supplied)
with the end-of-stream error `UV_EOF`; nothing is appended to the outbound
queue, the engine is not signalled via `nghttp2_session_resume_data`, and no
error is escalated to the session (the call returns 0). -/
theorem streamWrite_not_writable (q : List WriteReq) (req : WriteReq)
    (hasCb : Bool) :
    (StreamWrite false q req hasCb).retval = 0
    ∧ (StreamWrite false q req hasCb).queue = q
    ∧ (StreamWrite false q req hasCb).resumed = false
    ∧ (hasCb = true →
        (StreamWrite false q req hasCb).cbCalls = [(req.wid, UV_EOF)])
    ∧ (hasCb = false → (StreamWrite false q req hasCb).cbCalls = []) := by
  cases hasCb <;> simp [StreamWrite]

/-- C4 witness: a concrete rejected write with a completion callback. -/
theorem streamWrite_not_writable_witness :
    (StreamWrite false [] ⟨7, [[1, 2]]⟩ true).retval = 0
    ∧ (StreamWrite false [] ⟨7, [[1, 2]]⟩ true).queue = []
    ∧ (StreamWrite false [] ⟨7, [[1, 2]]⟩ true).resumed = false
    ∧ (StreamWrite false [] ⟨7, [[1, 2]]⟩ true).cbCalls = [(7, UV_EOF)] := by
  have h := streamWrite_not_writable [] ⟨7, [[1, 2]]⟩ true
  exact ⟨h.1, h.2.1, h.2.2.1, h.2.2.2.1 rfl⟩

/-! ## C9 -/

/-- C9: destroying a stream a second (or any later) time after a first
destroy has begun is a no-op with no observable effect: the stream is not
unregistered from the session again, no buffered data chunks or header
entries are released again, and the object is not returned to the pool a
second time. -/
theorem destroy_idempotent (s : StreamState) :
    Destroy (Destroy s).stream = ⟨(Destroy s).stream, [], [], [], false⟩ := by
  by_cases h : (IsDestroyed s || IsDestroying s) = true
  · simp [Destroy, h]
  · have h' : s.flags.destroyed = false ∧ s.flags.destroying = false := by
      simpa [IsDestroyed, IsDestroying] using h
    simp [Destroy, IsDestroyed, IsDestroying, h'.1, h'.2]

/-! ## C7 -/

lemma sessionWriteGo_ok (rs : List Int) (h : ∀ x ∈ rs, 0 ≤ x) (total : Int)
    (fed : Nat) :
    SessionWriteGo rs total fed = (total + rs.sum, fed + rs.length, true) := by
  induction rs generalizing total fed with
  | nil => simp [SessionWriteGo]
  | cons r rs ih =>
      have hr : ¬r < 0 := not_lt.mpr (h r (by simp))
      rw [SessionWriteGo, if_neg hr, ih (fun x hx => h x (by simp [hx]))]
      refine Prod.ext ?_ (Prod.ext ?_ rfl) <;> simp <;> omega

lemma sessionWriteGo_err (pre : List Int) (r : Int) (post : List Int)
    (hpre : ∀ x ∈ pre, 0 ≤ x) (hr : r < 0) (total : Int) (fed : Nat) :
    SessionWriteGo (pre ++ r :: post) total fed
      = (r, fed + pre.length + 1, false) := by
  induction pre generalizing total fed with
  | nil => simp [SessionWriteGo, hr]
  | cons a pre ih =>
      have ha : ¬a < 0 := not_lt.mpr (hpre a (by simp))
      rw [List.cons_append, SessionWriteGo, if_neg ha,
        ih (fun x hx => hpre x (by simp [hx]))]
      refine Prod.ext rfl (Prod.ext ?_ rfl)
      simp
      omega

/-- C7: `Nghttp2Session::Write` feeds the inbound buffers to the engine in
order.  If the engine rejects some buffer (first negative feed result `r`
after the successful prefix `pre`), that failure code is returned
immediately: exactly the buffers up to and including the failing one were
fed, later buffers are not fed, and no Send Pipeline flush occurs (state
changes from the earlier feeds remain applied — there is no rollback in the
model, the earlier feeds having happened is recorded by the fed count).  If
every feed succeeds, the return value is the sum of the consumed byte counts
and `SendPendingData` is triggered before returning. -/
theorem sessionWrite_spec (pre post : List Int) (r : Int)
    (hpre : ∀ x ∈ pre, 0 ≤ x) (hr : r < 0) :
    SessionWrite (pre ++ r :: post) = (r, pre.length + 1, false)
    ∧ SessionWrite pre = (pre.sum, pre.length, true) := by
  unfold SessionWrite
  rw [sessionWriteGo_err pre r post hpre hr, sessionWriteGo_ok pre hpre]
  simp

/-- C7 witness: buffers consuming 2 and 3 bytes, then a failing feed with
code −7, then an unreached buffer. -/
theorem sessionWrite_spec_witness :
    SessionWrite [2, 3, -7, 4] = (-7, 3, false)
    ∧ SessionWrite [2, 3] = (5, 2, true) := by
  have h := sessionWrite_spec [2, 3] [4] (-7) (by decide) (by decide)
  simpa using h

/-! ## C8 -/

/-- C8: on a stream that is currently reading, `ReadStop` zeroes the local
flow-control window after snapshotting it (when the engine reports a
non-negative size) into `prev_local_window_size_`; calling `ReadStop` again
immediately is a complete no-op — the window stays zero and the snapshot
taken by the first call is preserved, not overwritten with the now-zero
value.  `ReadStop` on any stream that is not currently reading changes
nothing. -/
theorem readStop_twice (s : StreamState) (h : IsReading s = true) :
    (ReadStop s).localWindow = 0
    ∧ ReadStop (ReadStop s) = ReadStop s
    ∧ (ReadStop (ReadStop s)).prevLocalWindowSize
        = (ReadStop s).prevLocalWindowSize
    ∧ (ReadStop s).prevLocalWindowSize
        = (if 0 ≤ s.localWindow then s.localWindow else s.prevLocalWindowSize)
    ∧ ∀ t : StreamState, IsReading t = false → ReadStop t = t := by
  have hstop : ∀ t : StreamState, IsReading t = false → ReadStop t = t := by
    intro t ht
    simp [ReadStop, ht]
  have h' : s.flags.readStart = true ∧ s.flags.readPaused = false := by
    simpa [IsReading] using h
  have hpaused : IsReading (ReadStop s) = false := by
    by_cases hw : 0 ≤ s.localWindow <;>
      simp [ReadStop, IsReading, h'.1, h'.2, hw]
  refine ⟨?_, hstop _ hpaused, ?_, ?_, hstop⟩
  · by_cases hw : 0 ≤ s.localWindow <;> simp [ReadStop, h, h'.1, h'.2, hw]
  · rw [hstop _ hpaused]
  · by_cases hw : 0 ≤ s.localWindow <;> simp [ReadStop, h, h'.1, h'.2, hw]

/-- C8 witness: a reading stream with window 100; the first stop saves 100
and zeroes the window, the second changes nothing. -/
theorem readStop_twice_witness :
    (ReadStop ⟨1, ⟨true, false, false, false, false⟩, true, [], [], 100, 65535⟩).localWindow = 0
    ∧ ReadStop (ReadStop ⟨1, ⟨true, false, false, false, false⟩, true, [], [], 100, 65535⟩)
        = ReadStop ⟨1, ⟨true, false, false, false, false⟩, true, [], [], 100, 65535⟩
    ∧ (ReadStop ⟨1, ⟨true, false, false, false, false⟩, true, [], [], 100, 65535⟩).prevLocalWindowSize
        = 100 := by
  have h := readStop_twice
    ⟨1, ⟨true, false, false, false, false⟩, true, [], [], 100, 65535⟩ (by decide)
  exact ⟨h.1, h.2.1, by rw [h.2.2.2.1]; decide⟩

/-! ## C10 -/

/-- C10: a stream-close event for an id with no registered stream returns
successfully (0) with no notification to the external consumer and no abort —
intentionally ignored — whereas the DATA and HEADERS frame-complete handlers
treat an unknown id as a fatal invariant violation (`CHECK_NE` abort,
modelled as `none`). -/
theorem onStreamClose_unknown_ignored (streams : List (Int × List Buf))
    (streamsH : List (Int × StreamHeaders)) (id : Int) (code flags : Nat)
    (h : FindStream streams id = none)
    (hH : FindStream streamsH id = none) :
    OnStreamClose streams id code = (0, [])
    ∧ HandleDataFrameSession streams id = none
    ∧ HandleHeadersFrameSession streamsH id flags = none := by
  simp [OnStreamClose, HandleDataFrameSession, HandleHeadersFrameSession, h, hH]

/-- C10 witness: a registry holding only stream 1, probed with id 3. -/
theorem onStreamClose_unknown_ignored_witness :
    OnStreamClose [(1, [[5]])] 3 8 = (0, [])
    ∧ HandleDataFrameSession [(1, [[5]])] 3 = none
    ∧ HandleHeadersFrameSession [(1, ⟨[], 0⟩)] 3 0 = none := by
  have h := onStreamClose_unknown_ignored [(1, [[5]])] [(1, ⟨[], 0⟩)] 3 8 0
    (by decide) (by decide)
  exact h

/-! ## C3: the outbound drain loop preserves the byte stream and fires
completions in FIFO order -/

lemma fillGo_spec (bs : List Buf) (off rem : Nat)
    (hoff : off ≤ (bs.headD []).length) :
    (fillGo bs off rem).out
        ++ (fillGo bs off rem).bufs.flatten.drop (fillGo bs off rem).off
      = bs.flatten.drop off
    ∧ (∃ j, (fillGo bs off rem).bufs = bs.drop j)
    ∧ (fillGo bs off rem).off ≤ ((fillGo bs off rem).bufs.headD []).length := by
  induction bs generalizing off rem with
  | nil =>
      have hoff0 : off = 0 := Nat.le_zero.mp (by simpa using hoff)
      exact ⟨by simp [fillGo, hoff0], ⟨0, rfl⟩, by simp [fillGo, hoff0]⟩
  | cons b bs ih =>
      have hoffb : off ≤ b.length := by simpa using hoff
      by_cases h0 : rem = 0
      · subst h0
        exact ⟨by simp [fillGo], ⟨0, by simp [fillGo]⟩, by simpa [fillGo] using hoffb⟩
      · by_cases hbl : min (b.length - off) rem < b.length - off
        · -- partial copy of the current buffer; the destination is filled
          have hle : off + min (b.length - off) rem ≤ b.length := by omega
          refine ⟨?_, ⟨0, by simp [fillGo, h0, hbl]⟩, ?_⟩
          · simp only [fillGo, h0, hbl, ite_false, ite_true]
            rw [List.flatten_cons, List.drop_append_eq_append_drop,
              List.drop_append_eq_append_drop,
              Nat.sub_eq_zero_of_le hoffb, Nat.sub_eq_zero_of_le hle,
              List.drop_zero]
            rw [← List.drop_drop, ← List.append_assoc, List.take_append_drop]
          · simpa [fillGo, h0, hbl] using hle
        · -- the current buffer is fully consumed; continue with the next
          have hmin : min (b.length - off) rem = b.length - off :=
            Nat.le_antisymm (Nat.min_le_left _ _) (Nat.le_of_not_lt hbl)
          have hout1 : (b.drop off).take (min (b.length - off) rem)
              = b.drop off := by
            apply List.take_of_length_le
            simp [hmin]
          obtain ⟨ih1, ⟨j, hj⟩, ih3⟩ :=
            ih 0 (rem - min (b.length - off) rem) (Nat.zero_le _)
          refine ⟨?_, ⟨j + 1, by simpa [fillGo, h0, hbl] using hj⟩, ?_⟩
          · simp only [fillGo, h0, hbl, ite_false, ite_true]
            rw [hout1, List.flatten_cons, List.drop_append_eq_append_drop,
              Nat.sub_eq_zero_of_le hoffb, List.drop_zero, List.append_assoc]
            rw [List.drop_zero] at ih1
            rw [ih1]
          · simpa [fillGo, h0, hbl] using ih3

lemma pendingState_fresh (q : List WriteReq) :
    pendingState q (headBufsOf q) 0 = allBytes q := by
  cases q <;> simp [pendingState, headBufsOf, allBytes, reqBytes]

lemma cursorOK_fresh (q : List WriteReq) : CursorOK q (headBufsOf q) 0 := by
  cases q with
  | nil => exact ⟨rfl, rfl⟩
  | cons h t => exact ⟨⟨0, by simp [headBufsOf]⟩, Nat.zero_le _⟩

lemma pendingState_suffix (q : List WriteReq) (hb : List Buf) (off : Nat)
    (hc : CursorOK q hb off) :
    ∃ c, allBytes q = c ++ pendingState q hb off := by
  cases q with
  | nil =>
      obtain ⟨h1, h2⟩ := hc
      exact ⟨[], by simp [pendingState, allBytes, h1, h2]⟩
  | cons h t =>
      obtain ⟨⟨j, hj⟩, _⟩ := hc
      refine ⟨(h.bufs.take j).flatten ++ hb.flatten.take off, ?_⟩
      have hsplit : h.bufs.flatten
          = (h.bufs.take j).flatten ++ (hb.flatten.take off ++ hb.flatten.drop off) := by
        rw [List.take_append_drop, hj, ← List.flatten_append,
          List.take_append_drop]
      simp only [allBytes, List.map_cons, List.flatten_cons, pendingState,
        List.tail_cons]
      rw [show reqBytes h = h.bufs.flatten from rfl, hsplit]
      simp only [List.append_assoc]

lemma pullQueue_spec (q : List WriteReq) (hb : List Buf) (off rem : Nat)
    (hc : CursorOK q hb off) :
    ∃ k, (pullQueue q hb off rem).fired = (q.take k).map WriteReq.wid
      ∧ (pullQueue q hb off rem).queue = q.drop k
      ∧ (pullQueue q hb off rem).out
          ++ pendingState (pullQueue q hb off rem).queue
              (pullQueue q hb off rem).headBufs (pullQueue q hb off rem).headOff
        = pendingState q hb off
      ∧ CursorOK (pullQueue q hb off rem).queue
          (pullQueue q hb off rem).headBufs (pullQueue q hb off rem).headOff := by
  induction q generalizing hb off rem with
  | nil =>
      exact ⟨0, by simp [pullQueue], by simp [pullQueue], by simp [pullQueue],
        by simpa [pullQueue] using hc⟩
  | cons h t ih =>
      obtain ⟨⟨j, hj⟩, hoff⟩ := hc
      obtain ⟨hfill, ⟨j1, hj1⟩, hoff'⟩ := fillGo_spec hb off rem hoff
      cases hdone : (fillGo hb off rem).bufs.isEmpty with
      | true =>
          have hb0 : (fillGo hb off rem).bufs = [] := by
            simpa using hdone
          have hfull : (fillGo hb off rem).out = hb.flatten.drop off := by
            rw [hb0] at hfill
            simpa using hfill
          obtain ⟨k, hf, hq, he, hcv⟩ :=
            ih (headBufsOf t) 0 (fillGo hb off rem).rem (cursorOK_fresh t)
          refine ⟨k + 1, ?_, ?_, ?_, ?_⟩
          · simp only [pullQueue, hdone, ite_true]
            rw [List.take_succ_cons, List.map_cons, hf]
          · simpa [pullQueue, hdone] using hq
          · simp only [pullQueue, hdone, ite_true]
            rw [List.append_assoc, he, pendingState_fresh, hfull]
            simp [pendingState]
          · simpa [pullQueue, hdone] using hcv
      | false =>
          refine ⟨0, by simp [pullQueue, hdone], by simp [pullQueue, hdone],
            ?_, ?_⟩
          · simp only [pullQueue, hdone, Bool.false_eq_true, ite_false]
            simp only [pendingState, List.tail_cons]
            rw [← List.append_assoc, hfill]
          · simp only [pullQueue, hdone, Bool.false_eq_true, ite_false]
            refine ⟨⟨j + j1, ?_⟩, hoff'⟩
            rw [hj1, hj, List.drop_drop]

lemma pullMany_spec (ls : List Nat) (q : List WriteReq) (hb : List Buf)
    (off : Nat) (hc : CursorOK q hb off) :
    ∃ k, (pullMany q hb off ls).fired = (q.take k).map WriteReq.wid
      ∧ (pullMany q hb off ls).queue = q.drop k
      ∧ (pullMany q hb off ls).out
          ++ pendingState (pullMany q hb off ls).queue
              (pullMany q hb off ls).headBufs (pullMany q hb off ls).headOff
        = pendingState q hb off
      ∧ CursorOK (pullMany q hb off ls).queue
          (pullMany q hb off ls).headBufs (pullMany q hb off ls).headOff := by
  induction ls generalizing q hb off with
  | nil =>
      exact ⟨0, by simp [pullMany], by simp [pullMany], by simp [pullMany],
        by simpa [pullMany] using hc⟩
  | cons l ls ih =>
      obtain ⟨k1, h1f, h1q, h1e, h1c⟩ := pullQueue_spec q hb off l hc
      obtain ⟨k2, h2f, h2q, h2e, h2c⟩ :=
        ih (pullQueue q hb off l).queue (pullQueue q hb off l).headBufs
          (pullQueue q hb off l).headOff h1c
      refine ⟨k1 + k2, ?_, ?_, ?_, ?_⟩
      · simp only [pullMany]
        rw [h1f, h2f, h1q, ← List.map_append, ← List.take_add]
      · simp only [pullMany]
        rw [h2q, h1q, List.drop_drop]
      · simp only [pullMany]
        rw [List.append_assoc, h2e, h1e]
      · simpa [pullMany] using h2c

/-- C3: for every write queue `q` (requests in submission order) and every
sequence of outbound-pull invocations with destination capacities `ls`:
the completion callbacks fired across all pulls are exactly the first `k`
requests, in submission order (strict FIFO); the bytes handed to the engine
followed by the bytes still pending reconstitute the queued byte stream
exactly; and the output already contains every byte of every buffer of each
request whose callback fired — a completion fires only after all of its
bytes were copied out. -/
theorem write_completion_fifo (q : List WriteReq) (ls : List Nat) :
    ∃ k, (pullMany q (headBufsOf q) 0 ls).fired = (q.take k).map WriteReq.wid
      ∧ (pullMany q (headBufsOf q) 0 ls).queue = q.drop k
      ∧ (pullMany q (headBufsOf q) 0 ls).out
          ++ pendingState (pullMany q (headBufsOf q) 0 ls).queue
              (pullMany q (headBufsOf q) 0 ls).headBufs
              (pullMany q (headBufsOf q) 0 ls).headOff
        = allBytes q
      ∧ ∃ c, (pullMany q (headBufsOf q) 0 ls).out
          = allBytes (q.take k) ++ c := by
  obtain ⟨k, hf, hq, he, hcv⟩ := pullMany_spec ls q (headBufsOf q) 0
    (cursorOK_fresh q)
  rw [pendingState_fresh] at he
  refine ⟨k, hf, hq, he, ?_⟩
  obtain ⟨c, hcsuf⟩ := pendingState_suffix _ _ _ hcv
  rw [hq] at hcsuf
  have hsplit : allBytes q = allBytes (q.take k) ++ allBytes (q.drop k) := by
    simp only [allBytes]
    rw [← List.flatten_append, ← List.map_append, List.take_append_drop]
  refine ⟨c, ?_⟩
  have h2 : (pullMany q (headBufsOf q) 0 ls).out
      ++ pendingState (pullMany q (headBufsOf q) 0 ls).queue
          (pullMany q (headBufsOf q) 0 ls).headBufs
          (pullMany q (headBufsOf q) 0 ls).headOff
    = (allBytes (q.take k) ++ c)
      ++ pendingState (pullMany q (headBufsOf q) 0 ls).queue
          (pullMany q (headBufsOf q) 0 ls).headBufs
          (pullMany q (headBufsOf q) 0 ls).headOff := by
    rw [he, hsplit, hcsuf, List.append_assoc, hq]
  exact List.append_cancel_right h2

/-! ## C5 -/

/-- C5 counterexample: a pull on a still-writable stream whose queue holds one
5-byte request, with destination capacity 100, empties the queue while the
stream is still writable and more data is expected — yet the pull does NOT
report `NGHTTP2_ERR_DEFERRED`: it returns the 5 copied bytes (deferral only
happens when a pull produces no bytes at all). -/
theorem onStreamRead_emptied_writable_not_deferred :
    (OnStreamRead true [] [⟨1, [[9, 9, 9, 9, 9]]⟩] [[9, 9, 9, 9, 9]] 0 100).queue
        = []
    ∧ (OnStreamRead true [] [⟨1, [[9, 9, 9, 9, 9]]⟩] [[9, 9, 9, 9, 9]] 0 100).retval
        ≠ NGHTTP2_ERR_DEFERRED
    ∧ (OnStreamRead true [] [⟨1, [[9, 9, 9, 9, 9]]⟩] [[9, 9, 9, 9, 9]] 0 100).retval
        = 5 := by
  decide

/-- C5 (amended): an outbound pull reports the deferred status exactly when
it has nothing to return — the queue is empty after the drain, this pull
produced no bytes, and the stream is still writable (a pull that did copy
bytes returns the byte count even if it emptied the queue; the engine defers
on its next, empty, pull).  When the queue is empty and the stream is no
longer writable, the pull marks end-of-stream and first offers the external
consumer the chance to attach trailers before finalizing: if the consumer
supplies any, `NGHTTP2_DATA_FLAG_NO_END_STREAM` is set and the trailers are
submitted. -/
theorem onStreamRead_deferral_eof (isW : Bool) (trailers : List Header)
    (q : List WriteReq) (hb : List Buf) (off len : Nat) :
    ((pullQueue q hb off len).queue = [] → (pullQueue q hb off len).out = [] →
      isW = true →
      (OnStreamRead isW trailers q hb off len).retval = NGHTTP2_ERR_DEFERRED)
    ∧ ((pullQueue q hb off len).queue = [] → isW = false →
        (OnStreamRead isW trailers q hb off len).eofFlag = true
        ∧ (OnStreamRead isW trailers q hb off len).retval
            = Int.ofNat (pullQueue q hb off len).out.length
        ∧ (OnStreamRead isW trailers q hb off len).noEndStream
            = !trailers.isEmpty
        ∧ (OnStreamRead isW trailers q hb off len).submittedTrailers
            = (if trailers.isEmpty then [] else trailers))
    ∧ ((pullQueue q hb off len).out ≠ [] →
        (OnStreamRead isW trailers q hb off len).retval
            = Int.ofNat (pullQueue q hb off len).out.length
        ∧ (OnStreamRead isW trailers q hb off len).eofFlag
            = ((pullQueue q hb off len).queue.isEmpty && !isW)) := by
  refine ⟨?_, ?_, ?_⟩
  · intro hq ho hw
    subst hw
    simp [OnStreamRead, hq, ho]
  · intro hq hw
    subst hw
    simp [OnStreamRead, hq]
  · intro ho
    have hlen : (pullQueue q hb off len).out.length ≠ 0 := by
      simpa using ho
    cases hqe : (pullQueue q hb off len).queue.isEmpty <;>
      cases isW <;> simp [OnStreamRead, hlen, hqe]

/-- C5 witness: a pull on an already-empty queue of a writable stream defers;
a pull on an empty queue of a no-longer-writable stream with one trailer pair
marks EOF, suppresses END_STREAM and submits the trailer. -/
theorem onStreamRead_deferral_eof_witness :
    (OnStreamRead true [] [] [] 0 10).retval = NGHTTP2_ERR_DEFERRED
    ∧ (OnStreamRead false [([1], [2])] [] [] 0 10).eofFlag = true
    ∧ (OnStreamRead false [([1], [2])] [] [] 0 10).noEndStream = true
    ∧ (OnStreamRead false [([1], [2])] [] [] 0 10).submittedTrailers
        = [([1], [2])] := by
  have h1 := (onStreamRead_deferral_eof true [] [] [] 0 10).1
    (by decide) (by decide) rfl
  have h2 := (onStreamRead_deferral_eof false [([1], [2])] [] [] 0 10).2.1
    (by decide) rfl
  exact ⟨h1, h2.1, by rw [h2.2.2.1]; decide, by rw [h2.2.2.2]; decide⟩

/-! ## C2 -/

/-- C2: evaluation of `SendPendingData` at a failing input — a single pulled
chunk spanning three send buffers (a scaled-down instance of the spec's
200000-byte chunk with 65536-byte buffers: chunk `[0,…,6]`, buffer capacity
2).  Because the copy-loop assigns `src_offset = remaining` instead of
advancing it, the flushes are `[0,1], [2,3], [2,3], [2]`: bytes 2–3 are sent
twice, bytes 4–6 are never sent, and the concatenation of the flushed
buffers differs from the pulled byte stream. -/
theorem sendPendingData_duplicates_and_drops :
    SendPendingData 2 [[0, 1, 2, 3, 4, 5, 6]] []
        = [[0, 1], [2, 3], [2, 3], [2]]
    ∧ (SendPendingData 2 [[0, 1, 2, 3, 4, 5, 6]] []).flatten
        ≠ [0, 1, 2, 3, 4, 5, 6] := by
  have h : SendPendingData 2 [[0, 1, 2, 3, 4, 5, 6]] []
      = [[0, 1], [2, 3], [2, 3], [2]] := by
    simp [SendPendingData, copyChunk]
  exact ⟨h, by rw [h]; decide⟩

end Http2
